import Mathlib

/-!
A shallow embedding of the asynchronous build-orchestration tasks of the
chacra repository (chacra/async/recurring.py): the poller (`poll_repos`),
the purger (`purge_repos`) and the HTTP notifier (`callback`).

Modelling conventions:
* Database rows are plain Lean structures; the `Repo.query...all()` scans
  become list traversals; `models.commit()` is modelled by the returned list
  being the persisted state (the code commits once per processed repo, and no
  modelled operation can fail between mutation and commit except where the
  purger raises, which is modelled explicitly by the `aborted` flag).
* Filesystem calls (`os.remove`, `shutil.rmtree`) are modelled by an outcome
  field carried by each `Binary` / `Repo` (`FsResult`): `ok` means the call
  succeeded and removed the file/tree, `enoent` means it raised `OSError`
  with `errno == ENOENT`, `otherErr` any other `OSError`.
* Celery job submissions (`apply_async`) and notifications (`post_queued`,
  `post_deleted`) are side effects collected into result lists.
-/

namespace Chacra

/-- Outcome of a filesystem removal call on a path. -/
inductive FsResult where
  | ok
  | enoent
  | otherErr
deriving DecidableEq, Repr

/-- A `Binary` row: a file reference owned by one Repo.  `rmResult` is the
modelled outcome of `os.remove(b.path)`. -/
structure Binary where
  id : Nat
  path : String
  rmResult : FsResult
deriving DecidableEq, Repr

/-- A `Repo` row.  `type` is `none` when unknown (Python `None`), otherwise the
stored string; `path` is `none` when the storage location is unset (falsy in
`if r.path:`); `modified` is a POSIX timestamp in seconds; `rmtreeResult` is
the modelled outcome of `shutil.rmtree(r.path)` when it is called. -/
structure Repo where
  id : Nat
  type : Option String
  needs_update : Bool
  is_queued : Bool
  is_updating : Bool
  path : Option String
  modified : Int
  binaries : List Binary
  rmtreeResult : FsResult
deriving DecidableEq, Repr

/-- Suffix test on strings via their character lists (Python `str.endswith`). -/
def strEndsWith (s t : String) : Bool := t.data.isSuffixOf s.data

/-- Modelled from the spec: `Repo.infer_type` lives in chacra/models/repos.py,
which is not among the sources; the spec says the poller attempts
"inference from the extensions of existing Binaries" and gives the scenario
`binaries=["x.deb"]` inferring `"deb"`.  So: the first binary whose path ends
in `.rpm` or `.deb` determines the type; otherwise inference fails (`none`). -/
def Repo.infer_type (r : Repo) : Option String :=
  r.binaries.findSome? fun b =>
    if strEndsWith b.path ".rpm" then some "rpm"
    else if strEndsWith b.path ".deb" then some "deb"
    else none

/-- Kind of build job submitted by the poller (`rpm.create_rpm_repo` vs
`debian.create_deb_repo`). -/
inductive JobKind where
  | rpm
  | deb
deriving DecidableEq, Repr

/-- A delayed celery job submission (`apply_async`): the task kind, the repo id
argument, the `countdown` (seconds of delay) and the routing queue. -/
structure Job where
  kind : JobKind
  repoId : Nat
  countdown : Nat
  queue : String
deriving DecidableEq, Repr

/-- The scan filter of the poller: `Repo.query.filter_by(needs_update=True,
is_queued=False)`. -/
def pollSelects (r : Repo) : Bool :=
  r.needs_update && !r.is_queued

/-- Processing of one repo by one `poll_repos` cycle: returns the persisted
row, the submitted jobs and the repo ids for which a "queued" notification
(`post_queued`) was posted.  A repo the scan does not select, or whose
`is_updating` flag is set (the `continue`), is returned untouched.  The inner
`if r.needs_update:` of the source is always true under the scan filter.
`quiet_time` is the configured debounce delay (`pecan.conf.quiet_time`). -/
def pollOne (quiet_time : Nat) (r : Repo) : Repo × List Job × List Nat :=
  if pollSelects r then
    if r.is_updating then (r, [], [])
    else
      match r.type with
      | some "rpm" =>
        ({ r with is_queued := true },
         [⟨JobKind.rpm, r.id, quiet_time, "build_repos"⟩], [r.id])
      | some "deb" =>
        ({ r with is_queued := true },
         [⟨JobKind.deb, r.id, quiet_time, "build_repos"⟩], [r.id])
      | _ =>
        match r.infer_type with
        | some t => ({ r with is_queued := true, type := some t }, [], [r.id])
        | none => ({ r with is_queued := true }, [], [r.id])
  else (r, [], [])

/-- One `poll_repos` cycle over the whole table: each row is processed
independently (the source commits once per repo), so the cycle is the map of
`pollOne` over the rows, with the jobs and notifications concatenated in
scan order. -/
def poll_repos (quiet_time : Nat) (repos : List Repo) :
    List Repo × List Job × List Nat :=
  (repos.map fun r => (pollOne quiet_time r).1,
   (repos.map fun r => (pollOne quiet_time r).2.1).flatten,
   (repos.map fun r => (pollOne quiet_time r).2.2).flatten)

/-- Iterated poll cycles (the task runs on a fixed external schedule). -/
def pollIter (quiet_time : Nat) : Nat → List Repo → List Repo
  | 0, repos => repos
  | n + 1, repos => pollIter quiet_time n (poll_repos quiet_time repos).1

/-- The retention boundary of the purger: `lifespan = now -
datetime.timedelta(weeks=2)`, i.e. 14 days of 86400 seconds. -/
def lifespan (now : Int) : Int := now - 14 * 86400

/-- Storage files removed by the binary loop of the purger.  `os.remove` is
wrapped in `except OSError as err: if err.errno == errno.ENOENT: pass` with no
re-raise, so every `OSError` is swallowed and the loop always reaches every
binary; a file is actually removed exactly when the call succeeded. -/
def binRemovedFiles (bs : List Binary) : List String :=
  (bs.filter fun b => b.rmResult = FsResult.ok).map Binary.path

/-- Outcome of the `shutil.rmtree(r.path)` step of the purger, guarded by
`if r.path:`.  `some dirs` means control continues past the step with `dirs`
the directories actually removed; `none` means an `OSError` propagates: the
handler reads `if err.errno == errno.ENOENT: pass` followed by an
unconditional `raise`, so both the `enoent` and the `otherErr` outcome
re-raise. -/
def rmtreeOutcome (r : Repo) : Option (List String) :=
  match r.path with
  | none => some []
  | some p =>
    match r.rmtreeResult with
    | FsResult.ok => some [p]
    | FsResult.enoent => none
    | FsResult.otherErr => none

/-- Observable result of one `purge_repos` cycle: the surviving rows, the
storage files and directories removed, the Binary rows deleted and committed,
the repo ids for which a "deleted" notification (`post_deleted`) was posted,
and whether the cycle was aborted by a propagating `OSError`. -/
structure PurgeOut where
  repos : List Repo
  removedFiles : List String
  removedDirs : List String
  deletedBinaryIds : List Nat
  deletedNotes : List Nat
  aborted : Bool
deriving DecidableEq, Repr

/-- The scan loop of the purger over `Repo.query.filter(modified < lifespan)`.
Per selected repo: every binary's storage file is removed (all `OSError`s
swallowed, see `binRemovedFiles`) and its row deleted and flushed; then the
storage tree is removed.  If that step raises, the exception propagates out of
the task: the repo's flushed-but-uncommitted row deletions are rolled back by
the task teardown, no notification is posted, its row and the rest of the
scan are left in place, while filesystem removals already performed persist.
Otherwise `post_deleted` fires, the row is deleted and the per-repo
transaction commits. -/
def purgeLoop (boundary : Int) : List Repo → PurgeOut
  | [] => ⟨[], [], [], [], [], false⟩
  | r :: rest =>
    if r.modified < boundary then
      match rmtreeOutcome r with
      | some dirs =>
        let out := purgeLoop boundary rest
        ⟨out.repos,
         binRemovedFiles r.binaries ++ out.removedFiles,
         dirs ++ out.removedDirs,
         r.binaries.map Binary.id ++ out.deletedBinaryIds,
         r.id :: out.deletedNotes,
         out.aborted⟩
      | none =>
        ⟨r :: rest, binRemovedFiles r.binaries, [], [], [], true⟩
    else
      let out := purgeLoop boundary rest
      ⟨r :: out.repos, out.removedFiles, out.removedDirs,
       out.deletedBinaryIds, out.deletedNotes, out.aborted⟩

/-- One `purge_repos` cycle.  `purgeFlag` models `getattr(pecan.conf,
'purge_repos', False)` with `none` for an unset attribute; the task returns
immediately when that value `is False`.  `now` models
`datetime.datetime.utcnow()` (or the `_now` test override) in seconds. -/
def purge_repos (purgeFlag : Option Bool) (now : Int) (repos : List Repo) :
    PurgeOut :=
  if purgeFlag.getD false = false then ⟨repos, [], [], [], [], false⟩
  else purgeLoop (lifespan now) repos

/-- Configuration consumed by the `callback` task (`pecan.conf` attributes;
`none` models an absent attribute). -/
structure CallbackConf where
  callback_url : Option String
  callback_user : Option String
  callback_key : Option String
  callback_verify_ssl : Option Bool
deriving DecidableEq, Repr

/-- The `data` argument of `callback`: either an already-encoded string, or a
dict; `dict (some s)` is a dict that `json.dumps` serializes to `s`, while
`dict none` is one on which `json.dumps` raises `TypeError`. -/
inductive Payload where
  | str (s : String)
  | dict (serialized : Option String)
deriving DecidableEq, Repr

/-- Outcome of the `requests.post` + `response.raise_for_status()` pair:
`success` raises nothing, `httpError` raises `requests.HTTPError` (a
client/server error response), `otherError` raises any other exception. -/
inductive PostOutcome where
  | success
  | httpError
  | otherError
deriving DecidableEq, Repr

/-- How one `callback` invocation ends.  `noUrl` and `authMissing` and
`serializeFailed` are the early returns (`return` / `return False`);
`retryRequested` is `raise self.retry(exc=exc)`; `swallowed` is the
catch-all `except Exception` that only logs; `done` is a successful send. -/
inductive CallbackResult where
  | noUrl
  | authMissing
  | serializeFailed
  | retryRequested
  | swallowed
  | done
deriving DecidableEq, Repr

/-- Observable behaviour of one `callback` run: whether an HTTP POST was
attempted, and how the task ended. -/
structure CallbackRun where
  posted : Bool
  result : CallbackResult
deriving DecidableEq, Repr

/-- The `callback` celery task.  `url0` models the explicit `url` argument
falling back to `os.path.join(pecan.conf.callback_url, project_name, '')`
(path join modelled as plain concatenation; the resulting string is never
inspected).  Auth attributes are read before the payload is serialized; a
missing one raises `AttributeError` and returns `False`.  The `outcome`
argument models what the network send does when it is reached. -/
def callback (conf : CallbackConf) (data : Payload) (project_name : String)
    (url : Option String) (outcome : PostOutcome) : CallbackRun :=
  let url0 : Option String :=
    match url with
    | some u => some u
    | none =>
      match conf.callback_url with
      | none => none
      | some base => some (base ++ "/" ++ project_name ++ "/")
  match url0 with
  | none => ⟨false, CallbackResult.noUrl⟩
  | some _ =>
    if conf.callback_user.isNone || conf.callback_key.isNone then
      ⟨false, CallbackResult.authMissing⟩
    else
      match data with
      | Payload.dict none => ⟨false, CallbackResult.serializeFailed⟩
      | _ =>
        match outcome with
        | PostOutcome.success => ⟨true, CallbackResult.done⟩
        | PostOutcome.httpError => ⟨true, CallbackResult.retryRequested⟩
        | PostOutcome.otherError => ⟨true, CallbackResult.swallowed⟩

/-- A pending rpm-typed repo (the dispatch scenario of the spec). -/
def rpmRepo : Repo := ⟨1, some "rpm", true, false, false, none, 0, [], FsResult.ok⟩

/-- A pending repo of unknown type whose single binary ends in `.deb`. -/
def inferRepo : Repo :=
  ⟨2, none, true, false, false, none, 0, [⟨11, "ceph_1.0.deb", FsResult.ok⟩], FsResult.ok⟩

/-- A pending repo of unknown type whose binary extension matches nothing, so
type inference fails. -/
def unknownRepo : Repo :=
  ⟨3, none, true, false, false, none, 0, [⟨12, "readme.txt", FsResult.ok⟩], FsResult.ok⟩

/-- A repo currently being built (`is_updating = true`) that also still has
`needs_update = true, is_queued = false`. -/
def updatingRepo : Repo := ⟨4, some "deb", true, false, true, none, 0, [], FsResult.ok⟩

/-- A stale built repo, two weeks old relative to `purgeNow`, whose filesystem
operations all succeed. -/
def staleRepo : Repo :=
  ⟨5, some "rpm", false, false, false, some "/opt/repos/p5", 0,
   [⟨13, "/opt/repos/p5/x.rpm", FsResult.ok⟩], FsResult.ok⟩

/-- A stale repo whose storage directory is already missing: `shutil.rmtree`
raises `OSError` with `errno == ENOENT`. -/
def ghostDirRepo : Repo :=
  ⟨6, some "rpm", false, false, false, some "/opt/repos/p6", 0, [], FsResult.enoent⟩

/-- A stale repo whose first binary removal raises a non-ENOENT `OSError` and
whose second binary removal succeeds. -/
def errBinRepo : Repo :=
  ⟨7, some "deb", false, false, false, some "/opt/repos/p7", 0,
   [⟨14, "/opt/repos/p7/a.deb", FsResult.otherErr⟩,
    ⟨15, "/opt/repos/p7/b.deb", FsResult.ok⟩], FsResult.ok⟩

/-- A recently modified repo (strictly inside the retention window). -/
def freshRepo : Repo :=
  ⟨8, some "deb", false, false, false, some "/opt/repos/p8", 1300000,
   [⟨16, "/opt/repos/p8/y.deb", FsResult.ok⟩], FsResult.ok⟩

/-- A timestamp used by the concrete purge runs: `14*86400 + 1` seconds, so
`lifespan purgeNow = 1` and the repos with `modified = 0` are stale. -/
def purgeNow : Int := 14 * 86400 + 1

/-- A fully populated callback configuration. -/
def demoConf : CallbackConf :=
  ⟨some "http://api.example.com", some "u", some "k", none⟩

/-- A repo the scan does not select is returned untouched with no effects. -/
theorem pollOne_not_selected {qt : Nat} {r : Repo} (h : pollSelects r = false) :
    pollOne qt r = (r, [], []) := by
  unfold pollOne
  rw [h]
  rfl

/-- A repo with `is_queued = true` is not selected by the scan. -/
theorem not_selected_of_queued {r : Repo} (h : r.is_queued = true) :
    pollSelects r = false := by
  simp [pollSelects, h]

/-- An `is_updating` repo is skipped (`continue`): untouched, no effects. -/
theorem pollOne_updating {qt : Nat} {r : Repo} (h : r.is_updating = true) :
    pollOne qt r = (r, [], []) := by
  unfold pollOne
  rw [h]
  simp

/-- Poll processing never changes a repo's id. -/
theorem pollOne_fst_id (qt : Nat) (r : Repo) : ((pollOne qt r).1).id = r.id := by
  unfold pollOne
  split
  · split
    · rfl
    · split
      · rfl
      · rfl
      · split
        · rfl
        · rfl
  · rfl

/-- Every job submitted while processing a repo carries that repo's id. -/
theorem pollOne_jobs_id (qt : Nat) (r : Repo) :
    ∀ j ∈ (pollOne qt r).2.1, j.repoId = r.id := by
  unfold pollOne
  split
  · split
    · simp
    · split <;> simp_all
      split <;> simp_all
  · simp

/-- Every "queued" notification posted while processing a repo carries that
repo's id. -/
theorem pollOne_notes_id (qt : Nat) (r : Repo) :
    ∀ n ∈ (pollOne qt r).2.2, n = r.id := by
  unfold pollOne
  split
  · split
    · simp
    · split <;> simp_all
      split <;> simp_all
  · simp

/-- A selected, not-updating repo comes out of processing with
`is_queued = true`, whatever its type. -/
theorem pollOne_sets_queued {qt : Nat} {r : Repo} (hsel : pollSelects r = true)
    (hupd : r.is_updating = false) : ((pollOne qt r).1).is_queued = true := by
  unfold pollOne
  split
  · split
    · simp_all
    · split <;> first | rfl | (split <;> rfl)
  · simp_all

/-- A selected, not-updating repo gets exactly one "queued" notification. -/
theorem pollOne_notes_selected {qt : Nat} {r : Repo} (hsel : pollSelects r = true)
    (hupd : r.is_updating = false) : (pollOne qt r).2.2 = [r.id] := by
  unfold pollOne
  split
  · split
    · simp_all
    · split <;> first | rfl | (split <;> rfl)
  · simp_all

/-- Once `is_queued` is set it stays set across poll processing. -/
theorem pollOne_queued_mono {qt : Nat} {r : Repo} (h : r.is_queued = true) :
    ((pollOne qt r).1).is_queued = true := by
  rw [pollOne_not_selected (not_selected_of_queued h)]
  exact h

/-- Processing of a selected rpm repo: flag set, one delayed rpm job, one
"queued" notification. -/
theorem pollOne_rpm {qt : Nat} {r : Repo} (h1 : r.needs_update = true)
    (h2 : r.is_queued = false) (h3 : r.is_updating = false)
    (ht : r.type = some "rpm") :
    pollOne qt r = ({ r with is_queued := true },
      [⟨JobKind.rpm, r.id, qt, "build_repos"⟩], [r.id]) := by
  unfold pollOne
  rw [show pollSelects r = true by simp [pollSelects, h1, h2], h3, ht]
  rfl

/-- Processing of a selected deb repo: flag set, one delayed deb job, one
"queued" notification. -/
theorem pollOne_deb {qt : Nat} {r : Repo} (h1 : r.needs_update = true)
    (h2 : r.is_queued = false) (h3 : r.is_updating = false)
    (ht : r.type = some "deb") :
    pollOne qt r = ({ r with is_queued := true },
      [⟨JobKind.deb, r.id, qt, "build_repos"⟩], [r.id]) := by
  unfold pollOne
  rw [show pollSelects r = true by simp [pollSelects, h1, h2], h3, ht]
  rfl

/-- Processing of a selected repo of unknown, uninferable type: only the flag
is set and the notification posted; no job. -/
theorem pollOne_unknown_uninferable {qt : Nat} {r : Repo} (h1 : r.needs_update = true)
    (h2 : r.is_queued = false) (h3 : r.is_updating = false)
    (ht : r.type = none) (hi : r.infer_type = none) :
    pollOne qt r = ({ r with is_queued := true }, [], [r.id]) := by
  unfold pollOne
  rw [show pollSelects r = true by simp [pollSelects, h1, h2], h3, ht, hi]
  rfl

/-- Processing of a selected repo of unknown but inferable type: flag set,
type persisted, notification posted; no job. -/
theorem pollOne_unknown_inferable {qt : Nat} {r : Repo} {t : String}
    (h1 : r.needs_update = true) (h2 : r.is_queued = false)
    (h3 : r.is_updating = false) (ht : r.type = none)
    (hi : r.infer_type = some t) :
    pollOne qt r = ({ r with is_queued := true, type := some t }, [], [r.id]) := by
  unfold pollOne
  rw [show pollSelects r = true by simp [pollSelects, h1, h2], h3, ht, hi]
  rfl

/-- A poll cycle keeps the table's id column pointwise: row ids are stable. -/
theorem poll_repos_ids (qt : Nat) (repos : List Repo) :
    ((poll_repos qt repos).1).map Repo.id = repos.map Repo.id := by
  unfold poll_repos
  rw [List.map_map]
  exact List.map_congr_left fun r _ => pollOne_fst_id qt r

/-- Restriction of the effects of a poll cycle to one row of the table: with
distinct row ids, filtering the cycle's effect stream by a member's id yields
exactly what processing that member produced.  `f` extracts a per-repo effect
list and `g` the repo id an effect is tagged with. -/
theorem filter_flatten_effects {α : Type} (f : Repo → List α) (g : α → Nat)
    (hg : ∀ s, ∀ x ∈ f s, g x = s.id) :
    ∀ (repos : List Repo), (repos.map Repo.id).Nodup →
      ∀ r ∈ repos, ((repos.map f).flatten.filter fun x => g x == r.id) = f r := by
  intro repos
  induction repos with
  | nil => intro _ r hr; cases hr
  | cons s rest ih =>
    intro hnd r hr
    rw [List.map_cons, List.nodup_cons] at hnd
    rw [List.map_cons, List.flatten_cons, List.filter_append]
    rcases List.mem_cons.mp hr with heq | hmem
    · subst heq
      have h1 : (f r).filter (fun x => g x == r.id) = f r :=
        List.filter_eq_self.mpr fun x hx => by simp [hg r x hx]
      have h2 : ((rest.map f).flatten.filter fun x => g x == r.id) = [] := by
        apply List.filter_eq_nil_iff.mpr
        intro x hx
        obtain ⟨l, hl, hxl⟩ := List.mem_flatten.mp hx
        obtain ⟨u, hu, rfl⟩ := List.mem_map.mp hl
        have hxu := hg u x hxl
        have hne : u.id ≠ r.id := fun hcontra =>
          hnd.1 (hcontra ▸ List.mem_map_of_mem Repo.id hu)
        simp [hxu, hne]
      rw [h1, h2, List.append_nil]
    · have hne : s.id ≠ r.id := fun hcontra =>
        hnd.1 (hcontra ▸ List.mem_map_of_mem Repo.id hmem)
      have h1 : (f s).filter (fun x => g x == r.id) = [] :=
        List.filter_eq_nil_iff.mpr fun x hx => by simp [hg s x hx, hne]
      rw [h1, ih hnd.2 r hmem, List.nil_append]

/-- Restriction of a poll cycle's job stream to one member row. -/
theorem poll_repos_jobs_of_mem (qt : Nat) (repos : List Repo)
    (hnd : (repos.map Repo.id).Nodup) (r : Repo) (hr : r ∈ repos) :
    ((poll_repos qt repos).2.1.filter fun j => j.repoId == r.id) =
      (pollOne qt r).2.1 :=
  filter_flatten_effects (fun s => (pollOne qt s).2.1) Job.repoId
    (fun s => pollOne_jobs_id qt s) repos hnd r hr

/-- Restriction of a poll cycle's "queued" notification stream to one member
row. -/
theorem poll_repos_notes_of_mem (qt : Nat) (repos : List Repo)
    (hnd : (repos.map Repo.id).Nodup) (r : Repo) (hr : r ∈ repos) :
    ((poll_repos qt repos).2.2.filter fun n => n == r.id) =
      (pollOne qt r).2.2 :=
  filter_flatten_effects (fun s => (pollOne qt s).2.2) (fun n => n)
    (fun s => pollOne_notes_id qt s) repos hnd r hr

/-- When every row carrying the id `rid` is already queued, a poll cycle
submits no job tagged with `rid`: the scan filter excludes those rows. -/
theorem poll_repos_no_jobs_of_queued (qt : Nat) (rid : Nat) (l : List Repo)
    (hinv : ∀ s ∈ l, s.id = rid → s.is_queued = true) :
    ((poll_repos qt l).2.1.filter fun j => j.repoId == rid) = [] := by
  apply List.filter_eq_nil_iff.mpr
  intro j hj
  obtain ⟨jl, hjl, hjmem⟩ := List.mem_flatten.mp hj
  obtain ⟨s, hs, rfl⟩ := List.mem_map.mp hjl
  have hjid := pollOne_jobs_id qt s j hjmem
  by_cases hsid : s.id = rid
  · have hq := hinv s hs hsid
    rw [pollOne_not_selected (not_selected_of_queued hq)] at hjmem
    cases hjmem
  · simp [hjid, hsid]

/-- The queued-for-id invariant is preserved by one poll cycle. -/
theorem queued_inv_step (qt : Nat) (rid : Nat) (l : List Repo)
    (hinv : ∀ s ∈ l, s.id = rid → s.is_queued = true) :
    ∀ s ∈ (poll_repos qt l).1, s.id = rid → s.is_queued = true := by
  intro s hs hid
  obtain ⟨t, ht, rfl⟩ := List.mem_map.mp hs
  have hid' : t.id = rid := by rw [← pollOne_fst_id qt t]; exact hid
  exact pollOne_queued_mono (hinv t ht hid')

/-- The queued-for-id invariant is preserved by any number of poll cycles. -/
theorem queued_inv_iter (qt : Nat) (rid : Nat) :
    ∀ (n : Nat) (l : List Repo),
      (∀ s ∈ l, s.id = rid → s.is_queued = true) →
      ∀ s ∈ pollIter qt n l, s.id = rid → s.is_queued = true := by
  intro n
  induction n with
  | zero => intro l hinv; exact hinv
  | succ m ih =>
    intro l hinv
    exact ih (poll_repos qt l).1 (queued_inv_step qt rid l hinv)

/-- After one poll cycle over a table with distinct ids, every row carrying
the id of a selected, not-updating member is queued. -/
theorem queued_inv_initial (qt : Nat) (repos : List Repo)
    (hnd : (repos.map Repo.id).Nodup) (r : Repo) (hr : r ∈ repos)
    (hsel : pollSelects r = true) (hupd : r.is_updating = false) :
    ∀ s ∈ (poll_repos qt repos).1, s.id = r.id → s.is_queued = true := by
  intro s hs hid
  obtain ⟨t, ht, rfl⟩ := List.mem_map.mp hs
  have hid' : t.id = r.id := by rw [← pollOne_fst_id qt t]; exact hid
  have : t = r := List.inj_on_of_nodup_map hnd ht hr hid'
  subst this
  exact pollOne_sets_queued hsel hupd

/-- Unfolding of the purge scan on the empty table. -/
theorem purgeLoop_nil (b : Int) : purgeLoop b [] = ⟨[], [], [], [], [], false⟩ :=
  rfl

/-- Unfolding of the purge scan on a selected head repo whose `rmtree` step
does not raise. -/
theorem purgeLoop_cons_sel (b : Int) (r : Repo) (rest : List Repo)
    (dirs : List String) (hsel : r.modified < b)
    (hd : rmtreeOutcome r = some dirs) :
    purgeLoop b (r :: rest) =
      ⟨(purgeLoop b rest).repos,
       binRemovedFiles r.binaries ++ (purgeLoop b rest).removedFiles,
       dirs ++ (purgeLoop b rest).removedDirs,
       r.binaries.map Binary.id ++ (purgeLoop b rest).deletedBinaryIds,
       r.id :: (purgeLoop b rest).deletedNotes,
       (purgeLoop b rest).aborted⟩ := by
  rw [purgeLoop, if_pos hsel, hd]

/-- Unfolding of the purge scan on a selected head repo whose `rmtree` step
raises: the cycle aborts there. -/
theorem purgeLoop_cons_abort (b : Int) (r : Repo) (rest : List Repo)
    (hsel : r.modified < b) (hd : rmtreeOutcome r = none) :
    purgeLoop b (r :: rest) =
      ⟨r :: rest, binRemovedFiles r.binaries, [], [], [], true⟩ := by
  rw [purgeLoop, if_pos hsel, hd]

/-- Unfolding of the purge scan on a head repo inside the retention window. -/
theorem purgeLoop_cons_keep (b : Int) (r : Repo) (rest : List Repo)
    (hsel : ¬ r.modified < b) :
    purgeLoop b (r :: rest) =
      ⟨r :: (purgeLoop b rest).repos,
       (purgeLoop b rest).removedFiles,
       (purgeLoop b rest).removedDirs,
       (purgeLoop b rest).deletedBinaryIds,
       (purgeLoop b rest).deletedNotes,
       (purgeLoop b rest).aborted⟩ := by
  rw [purgeLoop, if_neg hsel]

/-- The rows surviving a purge scan all come from the scanned table. -/
theorem purgeLoop_repos_subset (b : Int) :
    ∀ (l : List Repo), ∀ t ∈ (purgeLoop b l).repos, t ∈ l := by
  intro l
  induction l with
  | nil => intro t ht; cases ht
  | cons r rest ih =>
    intro t ht
    by_cases hsel : r.modified < b
    · cases hd : rmtreeOutcome r with
      | some dirs =>
        simp only [purgeLoop_cons_sel b r rest dirs hsel hd] at ht
        exact List.mem_cons_of_mem r (ih t ht)
      | none =>
        simp only [purgeLoop_cons_abort b r rest hsel hd] at ht
        exact ht
    · simp only [purgeLoop_cons_keep b r rest hsel] at ht
      rcases List.mem_cons.mp ht with rfl | h
      · exact List.mem_cons_self t rest
      · exact List.mem_cons_of_mem r (ih t h)

/-- Every "deleted" notification posted by a purge scan carries the id of a
scanned row. -/
theorem purgeLoop_notes_mem (b : Int) :
    ∀ (l : List Repo), ∀ n ∈ (purgeLoop b l).deletedNotes, n ∈ l.map Repo.id := by
  intro l
  induction l with
  | nil => intro n hn; cases hn
  | cons r rest ih =>
    intro n hn
    by_cases hsel : r.modified < b
    · cases hd : rmtreeOutcome r with
      | some dirs =>
        simp only [purgeLoop_cons_sel b r rest dirs hsel hd] at hn
        rcases List.mem_cons.mp hn with rfl | h
        · exact List.mem_map_of_mem Repo.id (List.mem_cons_self r rest)
        · exact List.mem_cons_of_mem r.id (ih n h)
      | none =>
        simp only [purgeLoop_cons_abort b r rest hsel hd] at hn
        cases hn
    · simp only [purgeLoop_cons_keep b r rest hsel] at hn
      exact List.mem_cons_of_mem r.id (ih n hn)

/-- A binary whose removal call succeeded has its storage file removed. -/
theorem mem_binRemovedFiles {bn : Binary} {bs : List Binary} (h : bn ∈ bs)
    (hok : bn.rmResult = FsResult.ok) : bn.path ∈ binRemovedFiles bs := by
  unfold binRemovedFiles
  exact List.mem_map_of_mem Binary.path (List.mem_filter.mpr ⟨h, by simp [hok]⟩)

/-- If the `rmtree` step of a repo with a storage path did not raise, that
path is among the removed directories. -/
theorem rmtreeOutcome_path_mem {r : Repo} {dirs : List String} {p : String}
    (hd : rmtreeOutcome r = some dirs) (hp : r.path = some p) : p ∈ dirs := by
  unfold rmtreeOutcome at hd
  rw [hp] at hd
  cases hres : r.rmtreeResult <;> rw [hres] at hd
  · cases hd
    exact List.mem_singleton.mpr rfl
  · cases hd
  · cases hd

/-- Complete description of a purge scan in which no filesystem error
propagates from any selected repo: the scan finishes, every stale row is
purged exactly as the source prescribes, and every fresh row survives
untouched. -/
theorem purgeLoop_complete (b : Int) :
    ∀ (l : List Repo), (l.map Repo.id).Nodup →
      (∀ s ∈ l, s.modified < b → (rmtreeOutcome s).isSome) →
      (purgeLoop b l).aborted = false ∧
      ∀ r ∈ l,
        (r.modified < b →
          (∀ t ∈ (purgeLoop b l).repos, t.id ≠ r.id) ∧
          (∀ bn ∈ r.binaries, bn.id ∈ (purgeLoop b l).deletedBinaryIds) ∧
          (∀ bn ∈ r.binaries, bn.rmResult = FsResult.ok →
            bn.path ∈ (purgeLoop b l).removedFiles) ∧
          (∀ p, r.path = some p → p ∈ (purgeLoop b l).removedDirs) ∧
          (purgeLoop b l).deletedNotes.count r.id = 1) ∧
        (¬ r.modified < b → r ∈ (purgeLoop b l).repos) := by
  intro l
  induction l with
  | nil =>
    intro _ _
    exact ⟨rfl, fun r hr => absurd hr (List.not_mem_nil r)⟩
  | cons s rest ih =>
    intro hnd hok
    rw [List.map_cons, List.nodup_cons] at hnd
    have ihp := ih hnd.2 fun t ht hm => hok t (List.mem_cons_of_mem s ht) hm
    by_cases hsel : s.modified < b
    · obtain ⟨dirs, hd⟩ :=
        Option.isSome_iff_exists.mp (hok s (List.mem_cons_self s rest) hsel)
      simp only [purgeLoop_cons_sel b s rest dirs hsel hd]
      refine ⟨ihp.1, ?_⟩
      intro r hr
      rcases List.mem_cons.mp hr with rfl | hmem
      · refine ⟨fun _ => ⟨?_, ?_, ?_, ?_, ?_⟩, fun hcon => absurd hsel hcon⟩
        · intro t ht hcontra
          exact hnd.1
            (hcontra ▸ List.mem_map_of_mem Repo.id (purgeLoop_repos_subset b rest t ht))
        · intro bn hbn
          exact List.mem_append_left _ (List.mem_map_of_mem Binary.id hbn)
        · intro bn hbn hbok
          exact List.mem_append_left _ (mem_binRemovedFiles hbn hbok)
        · intro p hp
          exact List.mem_append_left _ (rmtreeOutcome_path_mem hd hp)
        · rw [List.count_cons_self]
          have hzero : (purgeLoop b rest).deletedNotes.count r.id = 0 :=
            List.count_eq_zero.mpr fun hcontra =>
              hnd.1 (purgeLoop_notes_mem b rest r.id hcontra)
          rw [hzero]
      · have hne : s.id ≠ r.id := fun hcontra =>
          hnd.1 (hcontra ▸ List.mem_map_of_mem Repo.id hmem)
        obtain ⟨hstale, hfresh⟩ := ihp.2 r hmem
        refine ⟨fun hm => ?_, fun hm => hfresh hm⟩
        obtain ⟨ha, hb, hc, he, hf⟩ := hstale hm
        refine ⟨ha, ?_, ?_, ?_, ?_⟩
        · intro bn hbn
          exact List.mem_append_right _ (hb bn hbn)
        · intro bn hbn hbok
          exact List.mem_append_right _ (hc bn hbn hbok)
        · intro p hp
          exact List.mem_append_right _ (he p hp)
        · rw [List.count_cons_of_ne (fun hcontra => hne hcontra.symm), hf]
    · simp only [purgeLoop_cons_keep b s rest hsel]
      refine ⟨ihp.1, ?_⟩
      intro r hr
      rcases List.mem_cons.mp hr with rfl | hmem
      · exact ⟨fun hm => absurd hm hsel, fun _ => List.mem_cons_self r _⟩
      · obtain ⟨hstale, hfresh⟩ := ihp.2 r hmem
        refine ⟨fun hm => ?_, fun hm => List.mem_cons_of_mem s (hfresh hm)⟩
        obtain ⟨ha, hb, hc, he, hf⟩ := hstale hm
        refine ⟨?_, hb, hc, he, hf⟩
        intro t ht
        rcases List.mem_cons.mp ht with rfl | htm
        · exact fun hcontra =>
            hnd.1 (hcontra ▸ List.mem_map_of_mem Repo.id hmem)
        · exact ha t htm

/-- With the feature flag enabled, the purge task runs the scan against the
two-week boundary. -/
theorem purge_repos_enabled {flag : Option Bool} (now : Int) (repos : List Repo)
    (h : flag.getD false = true) :
    purge_repos flag now repos = purgeLoop (lifespan now) repos := by
  unfold purge_repos
  rw [h]
  simp

/-- With the feature flag unset or explicitly `False`, the purge task returns
immediately. -/
theorem purge_repos_disabled {flag : Option Bool} (now : Int) (repos : List Repo)
    (h : flag.getD false = false) :
    purge_repos flag now repos = ⟨repos, [], [], [], [], false⟩ := by
  unfold purge_repos
  rw [h]
  rfl

/-- C1: for every Repo with `needs_update = true`, `is_queued = false`,
`is_updating = false` and type `rpm` or `deb`, one run of `poll_repos` sets
that Repo's `is_queued` flag to true, persists it, and submits exactly one
build job of the matching kind to the `build_repos` queue, delayed by the
configured `quiet_time` seconds. -/
theorem poll_dispatches_known_type (qt : Nat) (repos : List Repo) (r : Repo)
    (hnd : (repos.map Repo.id).Nodup) (hr : r ∈ repos)
    (h1 : r.needs_update = true) (h2 : r.is_queued = false)
    (h3 : r.is_updating = false)
    (ht : r.type = some "rpm" ∨ r.type = some "deb") :
    ({ r with is_queued := true } ∈ (poll_repos qt repos).1) ∧
    ((poll_repos qt repos).2.1.filter fun j => j.repoId == r.id) =
      [⟨if r.type = some "rpm" then JobKind.rpm else JobKind.deb, r.id, qt,
        "build_repos"⟩] := by
  have hjobs := poll_repos_jobs_of_mem qt repos hnd r hr
  rcases ht with ht | ht
  · have hp := @pollOne_rpm qt r h1 h2 h3 ht
    constructor
    · have hm : (pollOne qt r).1 ∈ (poll_repos qt repos).1 :=
        List.mem_map_of_mem (fun s => (pollOne qt s).1) hr
      rw [hp] at hm
      exact hm
    · rw [hjobs, hp]
      simp [ht]
  · have hp := @pollOne_deb qt r h1 h2 h3 ht
    constructor
    · have hm : (pollOne qt r).1 ∈ (poll_repos qt repos).1 :=
        List.mem_map_of_mem (fun s => (pollOne qt s).1) hr
      rw [hp] at hm
      exact hm
    · rw [hjobs, hp]
      have : r.type ≠ some "rpm" := by rw [ht]; decide
      simp [this]

/-- C1 witness: the concrete rpm scenario of the spec, with quiet_time 5. -/
theorem poll_dispatches_known_type_witness :
    ({ rpmRepo with is_queued := true } ∈ (poll_repos 5 [rpmRepo]).1) ∧
    ((poll_repos 5 [rpmRepo]).2.1.filter fun j => j.repoId == rpmRepo.id) =
      [⟨if rpmRepo.type = some "rpm" then JobKind.rpm else JobKind.deb,
        rpmRepo.id, 5, "build_repos"⟩] :=
  poll_dispatches_known_type 5 [rpmRepo] rpmRepo (by decide)
    (List.mem_singleton.mpr rfl) rfl rfl rfl (Or.inl rfl)

/-- C3 counterexample: a pending Repo of unknown, uninferable type is NOT left
unchanged by a poll cycle: its `is_queued` flag is flipped to true. -/
theorem poll_uninferable_changes_repo_cex :
    unknownRepo.needs_update = true ∧ unknownRepo.is_queued = false ∧
    unknownRepo.is_updating = false ∧ unknownRepo.type = none ∧
    unknownRepo.infer_type = none ∧
    (poll_repos 5 [unknownRepo]).1 ≠ [unknownRepo] ∧
    (poll_repos 5 [unknownRepo]).1 = [{ unknownRepo with is_queued := true }] := by
  decide

/-- C3 amended: for every pending Repo of unknown, uninferable type, one run
of `poll_repos` sets `is_queued := true` (persisting it and emitting one
"queued" notification) while submitting no build job; all other fields are
unchanged. -/
theorem poll_uninferable_sets_queued_only (qt : Nat) (repos : List Repo)
    (r : Repo) (hnd : (repos.map Repo.id).Nodup) (hr : r ∈ repos)
    (h1 : r.needs_update = true) (h2 : r.is_queued = false)
    (h3 : r.is_updating = false) (ht : r.type = none)
    (hi : r.infer_type = none) :
    ({ r with is_queued := true } ∈ (poll_repos qt repos).1) ∧
    ((poll_repos qt repos).2.1.filter fun j => j.repoId == r.id) = [] ∧
    ((poll_repos qt repos).2.2.filter fun n => n == r.id) = [r.id] := by
  have hp := @pollOne_unknown_uninferable qt r h1 h2 h3 ht hi
  refine ⟨?_, ?_, ?_⟩
  · have hm : (pollOne qt r).1 ∈ (poll_repos qt repos).1 :=
      List.mem_map_of_mem (fun s => (pollOne qt s).1) hr
    rw [hp] at hm
    exact hm
  · rw [poll_repos_jobs_of_mem qt repos hnd r hr, hp]
  · rw [poll_repos_notes_of_mem qt repos hnd r hr, hp]

/-- C3 amended witness: the uninferable repo, concretely. -/
theorem poll_uninferable_sets_queued_only_witness :
    ({ unknownRepo with is_queued := true } ∈ (poll_repos 5 [unknownRepo]).1) ∧
    ((poll_repos 5 [unknownRepo]).2.1.filter
      fun j => j.repoId == unknownRepo.id) = [] ∧
    ((poll_repos 5 [unknownRepo]).2.2.filter
      fun n => n == unknownRepo.id) = [unknownRepo.id] :=
  poll_uninferable_sets_queued_only 5 [unknownRepo] unknownRepo (by decide)
    (List.mem_singleton.mpr rfl) rfl rfl rfl rfl (by decide)

/-- C4 counterexample: the repo with `binaries = [ceph_1.0.deb]` has its type
inferred and persisted with no job submitted, but the next poll cycle run
against the resulting state also submits NO build job (the claim says the
build is dispatched by the next cycle). -/
theorem poll_inferred_no_dispatch_next_cycle_cex :
    (poll_repos 5 [inferRepo]).1 =
      [{ inferRepo with is_queued := true, type := some "deb" }] ∧
    (poll_repos 5 [inferRepo]).2.1 = [] ∧
    (poll_repos 5 (poll_repos 5 [inferRepo]).1).2.1 = [] := by
  decide

/-- C4 amended: for every pending Repo of unknown but inferable type, one run
of `poll_repos` persists the inferred type and submits no build job in that
cycle; and because `is_queued` was also set to true, no later poll cycle ever
submits a build job for it either (the scan filters on `is_queued = false`,
which nothing resets). -/
theorem poll_inferred_persists_without_dispatch (qt : Nat) (repos : List Repo)
    (r : Repo) (t : String) (hnd : (repos.map Repo.id).Nodup) (hr : r ∈ repos)
    (h1 : r.needs_update = true) (h2 : r.is_queued = false)
    (h3 : r.is_updating = false) (ht : r.type = none)
    (hi : r.infer_type = some t) :
    ({ r with is_queued := true, type := some t } ∈ (poll_repos qt repos).1) ∧
    ((poll_repos qt repos).2.1.filter fun j => j.repoId == r.id) = [] ∧
    (∀ n : Nat,
      ((poll_repos qt (pollIter qt n (poll_repos qt repos).1)).2.1.filter
        fun j => j.repoId == r.id) = []) := by
  have hsel : pollSelects r = true := by simp [pollSelects, h1, h2]
  have hp := @pollOne_unknown_inferable qt r t h1 h2 h3 ht hi
  have hinit := queued_inv_initial qt repos hnd r hr hsel h3
  refine ⟨?_, ?_, ?_⟩
  · have hm : (pollOne qt r).1 ∈ (poll_repos qt repos).1 :=
      List.mem_map_of_mem (fun s => (pollOne qt s).1) hr
    rw [hp] at hm
    exact hm
  · rw [poll_repos_jobs_of_mem qt repos hnd r hr, hp]
  · intro n
    exact poll_repos_no_jobs_of_queued qt r.id _
      (queued_inv_iter qt r.id n _ hinit)

/-- C4 amended witness: the deb-inferable repo, concretely. -/
theorem poll_inferred_persists_without_dispatch_witness :
    ({ inferRepo with is_queued := true, type := some "deb" } ∈
      (poll_repos 5 [inferRepo]).1) ∧
    ((poll_repos 5 [inferRepo]).2.1.filter
      fun j => j.repoId == inferRepo.id) = [] ∧
    (∀ n : Nat,
      ((poll_repos 5 (pollIter 5 n (poll_repos 5 [inferRepo]).1)).2.1.filter
        fun j => j.repoId == inferRepo.id) = []) :=
  poll_inferred_persists_without_dispatch 5 [inferRepo] inferRepo "deb"
    (by decide) (List.mem_singleton.mpr rfl) rfl rfl rfl rfl (by decide)

/-- C8: for every Repo with `is_updating = true`, one run of `poll_repos`
never submits a build job for it, regardless of its other flags and type, and
leaves the Repo unchanged. -/
theorem poll_skips_updating_repo (qt : Nat) (repos : List Repo) (r : Repo)
    (hnd : (repos.map Repo.id).Nodup) (hr : r ∈ repos)
    (hupd : r.is_updating = true) :
    (r ∈ (poll_repos qt repos).1) ∧
    ((poll_repos qt repos).2.1.filter fun j => j.repoId == r.id) = [] := by
  have hp := @pollOne_updating qt r hupd
  constructor
  · have hm : (pollOne qt r).1 ∈ (poll_repos qt repos).1 :=
      List.mem_map_of_mem (fun s => (pollOne qt s).1) hr
    rw [hp] at hm
    exact hm
  · rw [poll_repos_jobs_of_mem qt repos hnd r hr, hp]

/-- C8 witness: a concretely updating repo is untouched and yields no job. -/
theorem poll_skips_updating_repo_witness :
    (updatingRepo ∈ (poll_repos 5 [updatingRepo]).1) ∧
    ((poll_repos 5 [updatingRepo]).2.1.filter
      fun j => j.repoId == updatingRepo.id) = [] :=
  poll_skips_updating_repo 5 [updatingRepo] updatingRepo (by decide)
    (List.mem_singleton.mpr rfl) rfl

/-- C10: every selected Repo with `is_updating = false` — whatever its type,
including an unknown type with failed inference — comes out of the cycle with
`is_queued = true`, committed, and with exactly one "queued" notification
posted; and since the scan filters on `is_queued = false` and nothing in the
poller resets the flag, no later poll cycle ever selects a row with that id
again. -/
theorem poll_queues_and_never_reselects (qt : Nat) (repos : List Repo)
    (r : Repo) (hnd : (repos.map Repo.id).Nodup) (hr : r ∈ repos)
    (h1 : r.needs_update = true) (h2 : r.is_queued = false)
    (h3 : r.is_updating = false) :
    (∀ s ∈ (poll_repos qt repos).1, s.id = r.id → s.is_queued = true) ∧
    ((poll_repos qt repos).2.2.filter fun n => n == r.id) = [r.id] ∧
    (∀ n : Nat, ∀ s ∈ pollIter qt n (poll_repos qt repos).1,
      s.id = r.id → pollSelects s = false) := by
  have hsel : pollSelects r = true := by simp [pollSelects, h1, h2]
  have hinit := queued_inv_initial qt repos hnd r hr hsel h3
  refine ⟨hinit, ?_, ?_⟩
  · rw [poll_repos_notes_of_mem qt repos hnd r hr,
        pollOne_notes_selected hsel h3]
  · intro n s hs hid
    exact not_selected_of_queued (queued_inv_iter qt r.id n _ hinit s hs hid)

/-- C10 witness: the uninferable repo is queued, notified once, and never
selected again. -/
theorem poll_queues_and_never_reselects_witness :
    (∀ s ∈ (poll_repos 5 [unknownRepo]).1, s.id = unknownRepo.id →
      s.is_queued = true) ∧
    ((poll_repos 5 [unknownRepo]).2.2.filter
      fun n => n == unknownRepo.id) = [unknownRepo.id] ∧
    (∀ n : Nat, ∀ s ∈ pollIter 5 n (poll_repos 5 [unknownRepo]).1,
      s.id = unknownRepo.id → pollSelects s = false) :=
  poll_queues_and_never_reselects 5 [unknownRepo] unknownRepo (by decide)
    (List.mem_singleton.mpr rfl) rfl rfl rfl

/-- C2: with the feature flag enabled and no filesystem error propagating,
one run of `purge_repos` selects exactly the Repos with `modified` strictly
before `now - 14` days: a selected Repo's row (and so all its Binary rows)
is gone, its Binary rows are deleted, its storage directory is removed, and
exactly one "deleted" notification is posted for it; a Repo with
`modified >= now - 14d` survives untouched. -/
theorem purge_selects_stale_and_deletes (flag : Option Bool) (now : Int)
    (repos : List Repo) (r : Repo) (hflag : flag.getD false = true)
    (hnd : (repos.map Repo.id).Nodup)
    (hok : ∀ s ∈ repos, s.modified < lifespan now → (rmtreeOutcome s).isSome)
    (hr : r ∈ repos) :
    (r.modified < lifespan now →
      (∀ t ∈ (purge_repos flag now repos).repos, t.id ≠ r.id) ∧
      (∀ bn ∈ r.binaries,
        bn.id ∈ (purge_repos flag now repos).deletedBinaryIds) ∧
      (∀ p, r.path = some p → p ∈ (purge_repos flag now repos).removedDirs) ∧
      (purge_repos flag now repos).deletedNotes.count r.id = 1) ∧
    (lifespan now ≤ r.modified → r ∈ (purge_repos flag now repos).repos) := by
  rw [purge_repos_enabled now repos hflag]
  obtain ⟨hstale, hfresh⟩ :=
    (purgeLoop_complete (lifespan now) repos hnd hok).2 r hr
  refine ⟨fun hm => ?_, fun hm => hfresh (not_lt.mpr hm)⟩
  obtain ⟨ha, hb, _, he, hf⟩ := hstale hm
  exact ⟨ha, hb, he, hf⟩

/-- C2 witness: a two-week-old repo is fully purged while a fresh repo in the
same table survives. -/
theorem purge_selects_stale_and_deletes_witness :
    ((staleRepo.modified < lifespan purgeNow →
      (∀ t ∈ (purge_repos (some true) purgeNow [staleRepo, freshRepo]).repos,
        t.id ≠ staleRepo.id) ∧
      (∀ bn ∈ staleRepo.binaries,
        bn.id ∈ (purge_repos (some true) purgeNow
          [staleRepo, freshRepo]).deletedBinaryIds) ∧
      (∀ p, staleRepo.path = some p →
        p ∈ (purge_repos (some true) purgeNow
          [staleRepo, freshRepo]).removedDirs) ∧
      (purge_repos (some true) purgeNow
        [staleRepo, freshRepo]).deletedNotes.count staleRepo.id = 1) ∧
    (lifespan purgeNow ≤ staleRepo.modified →
      staleRepo ∈ (purge_repos (some true) purgeNow
        [staleRepo, freshRepo]).repos)) ∧
    staleRepo.modified < lifespan purgeNow :=
  ⟨purge_selects_stale_and_deletes (some true) purgeNow [staleRepo, freshRepo]
    staleRepo rfl (by decide) (by decide) (List.mem_cons_self staleRepo _),
   by decide⟩

/-- C5: the claim says an ENOENT from deleting a selected Repo's storage
directory is treated as success and the purge of that Repo completes; the
code instead re-raises it (the handler falls through to an unconditional
`raise`), aborting that Repo's purge and the cycle: at this input the
selected repo's row survives, no "deleted" notification is posted, and the
cycle reports the propagated error — contradicting the claim and the
handler's own "no such file, ignore" comment. -/
theorem purge_rmtree_enoent_propagates :
    ghostDirRepo.modified < lifespan purgeNow ∧
    ghostDirRepo.rmtreeResult = FsResult.enoent ∧
    purge_repos (some true) purgeNow [ghostDirRepo] =
      ⟨[ghostDirRepo], [], [], [], [], true⟩ := by
  decide

/-- C6 counterexample: the first binary of `errBinRepo` fails with a
non-ENOENT `OSError`, yet nothing propagates: the cycle does not abort, the
remaining binary's file is removed and BOTH binary rows are deleted — the
claim says the error propagates and the remaining rows are not deleted. -/
theorem purge_binary_error_swallowed_cex :
    errBinRepo.binaries.map Binary.rmResult = [FsResult.otherErr, FsResult.ok] ∧
    purge_repos (some true) purgeNow [errBinRepo] =
      ⟨[], ["/opt/repos/p7/b.deb"], ["/opt/repos/p7"], [14, 15], [7], false⟩ := by
  decide

/-- C6 amended: when `purge_repos` deletes a selected Repo's Binary storage
files, every `OSError` — ENOENT or any other — is swallowed: processing of
the remaining Binaries continues, every Binary row of the Repo is deleted,
and each file whose removal call succeeded is removed. -/
theorem purge_binary_errors_swallowed (flag : Option Bool) (now : Int)
    (repos : List Repo) (r : Repo) (hflag : flag.getD false = true)
    (hnd : (repos.map Repo.id).Nodup)
    (hok : ∀ s ∈ repos, s.modified < lifespan now → (rmtreeOutcome s).isSome)
    (hr : r ∈ repos) (hsel : r.modified < lifespan now) :
    (purge_repos flag now repos).aborted = false ∧
    (∀ bn ∈ r.binaries,
      bn.id ∈ (purge_repos flag now repos).deletedBinaryIds) ∧
    (∀ bn ∈ r.binaries, bn.rmResult = FsResult.ok →
      bn.path ∈ (purge_repos flag now repos).removedFiles) := by
  rw [purge_repos_enabled now repos hflag]
  have h := purgeLoop_complete (lifespan now) repos hnd hok
  obtain ⟨_, hb, hc, _, _⟩ := (h.2 r hr).1 hsel
  exact ⟨h.1, hb, hc⟩

/-- C6 amended witness: the repo whose first binary removal raises a
non-ENOENT error, concretely. -/
theorem purge_binary_errors_swallowed_witness :
    (purge_repos (some true) purgeNow [errBinRepo]).aborted = false ∧
    (∀ bn ∈ errBinRepo.binaries,
      bn.id ∈ (purge_repos (some true) purgeNow [errBinRepo]).deletedBinaryIds) ∧
    (∀ bn ∈ errBinRepo.binaries, bn.rmResult = FsResult.ok →
      bn.path ∈ (purge_repos (some true) purgeNow [errBinRepo]).removedFiles) :=
  purge_binary_errors_swallowed (some true) purgeNow [errBinRepo] errBinRepo
    rfl (by decide) (by decide) (List.mem_singleton.mpr rfl) (by decide)

/-- C9: with the feature flag unset or disabled, a run of `purge_repos`
performs zero deletions and leaves all state unchanged, even when Repos older
than the retention window exist. -/
theorem purge_noop_when_disabled (flag : Option Bool) (now : Int)
    (repos : List Repo) (h : flag.getD false = false) :
    purge_repos flag now repos = ⟨repos, [], [], [], [], false⟩ :=
  purge_repos_disabled now repos h

/-- C9 witness: the flag is unset while a stale repo exists; nothing is
deleted. -/
theorem purge_noop_when_disabled_witness :
    purge_repos none purgeNow [staleRepo] = ⟨[staleRepo], [], [], [], [], false⟩ ∧
    staleRepo.modified < lifespan purgeNow :=
  ⟨purge_noop_when_disabled none purgeNow [staleRepo] rfl, by decide⟩

/-- C7: the callback task requests a retry if and only if an HTTP POST was
made and it resulted in a client/server error response; a JSON-serialization
failure of a dict payload stops the task with no retry and no network call;
any other unexpected failure during the send ends in the logged catch-all
(`swallowed`), never in a retry (and the model is a total function, so
nothing propagates). -/
theorem callback_retry_iff_http_error (conf : CallbackConf) (data : Payload)
    (pn : String) (url : Option String) (outcome : PostOutcome) :
    ((callback conf data pn url outcome).result =
        CallbackResult.retryRequested ↔
      ((callback conf data pn url outcome).posted = true ∧
        outcome = PostOutcome.httpError)) ∧
    (data = Payload.dict none →
      (callback conf data pn url outcome).posted = false ∧
      (callback conf data pn url outcome).result ≠
        CallbackResult.retryRequested) ∧
    ((callback conf data pn url outcome).posted = true →
      outcome = PostOutcome.otherError →
      (callback conf data pn url outcome).result =
        CallbackResult.swallowed) := by
  obtain ⟨cu, cuser, ckey, cssl⟩ := conf
  rcases data with s | (_ | s2) <;> cases url <;> cases cu <;> cases cuser <;>
    cases ckey <;> cases outcome <;> simp [callback]

/-- C7 witness: a dict payload that cannot be serialized makes no network
call and requests no retry. -/
theorem callback_retry_iff_http_error_witness :
    (callback demoConf (Payload.dict none) "proj" none
      PostOutcome.success).posted = false ∧
    (callback demoConf (Payload.dict none) "proj" none
      PostOutcome.success).result ≠ CallbackResult.retryRequested :=
  (callback_retry_iff_http_error demoConf (Payload.dict none) "proj" none
    PostOutcome.success).2.1 rfl

end Chacra
